import Mathlib

/-!
Verification of the shrink engine of `claude-mem`
(`src/services/worker/ShrinkAnalyzer.ts`).

The TypeScript class `ShrinkAnalyzer` is embedded shallowly:

* JS numbers are modelled as rationals (`ℚ`).  The only non-finite value
  that can arise in the scoring pipeline is `-Infinity`, produced by
  `Math.max()` on an empty argument list; it is modelled as `⊥ : WithBot ℚ`
  and threaded through the subsequent additions, subtraction of a finite
  constant, multiplication by the positive constant `0.2`, `Math.min` and
  `Math.max` — on all of which JS double arithmetic agrees with the
  `WithBot ℚ` operations used here.
* A serialized field (`facts`, `concepts`) is carried as its raw text
  together with the outcome of `JSON.parse` on it: `none` when the parse
  (or the subsequent array operation) throws, `some l` when it yields the
  list `l`.  JS truthiness of a string field is emptiness of the raw text.
* A function that can throw returns an `Option`.
* The SQLite table behind `SessionStore` is modelled as a list of rows;
  the two SQL queries issued by `analyze` become a filter (with a stable
  sort on `created_at_epoch`) and a count over that list.
-/

namespace ClaudeMem

/-- A serialized list-valued column: the raw stored text together with the
outcome of `JSON.parse` on it (`none` when parsing throws). -/
structure SerializedField where
  raw : String
  parse : Option (List String)
deriving DecidableEq

/-- A row of the `observations` table (`ObservationRecord`). -/
structure ObservationRecord where
  id : ℤ
  title : Option String
  subtitle : Option String
  narrative : Option String
  facts : Option SerializedField
  concepts : Option SerializedField
  type : String
  project : String
  created_at_epoch : ℚ
deriving DecidableEq

/-- `TYPE_WEIGHTS[t] ?? 0.5`: the fixed category-weight table with default
`0.5` for unknown categories. -/
def TYPE_WEIGHTS (t : String) : ℚ :=
  if t = "decision" then 1
  else if t = "bugfix" then 0.9
  else if t = "feature" then 0.8
  else if t = "refactor" then 0.7
  else if t = "discovery" then 0.5
  else if t = "change" then 0.4
  else 0.5

/-- `CONCEPT_WEIGHTS[c] ?? 0.5`: the fixed semantic-tag weight table with
default `0.5` for unknown tags. -/
def CONCEPT_WEIGHTS (c : String) : ℚ :=
  if c = "problem-solution" then 1
  else if c = "trade-off" then 0.9
  else if c = "why-it-exists" then 0.8
  else if c = "gotcha" then 0.8
  else if c = "how-it-works" then 0.7
  else if c = "pattern" then 0.6
  else if c = "what-changed" then 0.4
  else 0.5

/-- JS truthiness of an optional serialized field: `null`/`undefined` and the
empty string are falsy. -/
def fieldTruthy : Option SerializedField → Bool
  | none => false
  | some f => f.raw ≠ ""

/-- `Math.max(...concepts.map(c => CONCEPT_WEIGHTS[c] ?? 0.5))`: JS `Math.max`
over a possibly empty argument list, `-Infinity` (here `⊥`) when empty. -/
def maxConceptWeight (concepts : List String) : WithBot ℚ :=
  concepts.foldr (fun c m => max (↑(CONCEPT_WEIGHTS c)) m) ⊥

/-- `let score = 0.5; score += (typeWeight - 0.5) * 0.3`. -/
def typeAdjustedScore (obs : ObservationRecord) : ℚ :=
  0.5 + (TYPE_WEIGHTS obs.type - 0.5) * 0.3

/-- `ageDecay = Math.max(0, 1 - (ageMs / maxAgeMs))` with `ageMs = now -
obs.created_at_epoch`. -/
def ageDecay (obs : ObservationRecord) (now maxAgeMs : ℚ) : ℚ :=
  max 0 (1 - (now - obs.created_at_epoch) / maxAgeMs)

/-- `score *= (0.5 + ageDecay * 0.5)` applied to the type-adjusted score. -/
def agedScore (obs : ObservationRecord) (now maxAgeMs : ℚ) : ℚ :=
  typeAdjustedScore obs * (0.5 + ageDecay obs now maxAgeMs * 0.5)

/-- The concepts step of `calculateImportanceScore`: when `obs.concepts` is
truthy and parses, `score += (maxConceptWeight - 0.5) * 0.2`; a parse failure
is caught and skipped.  `-Infinity` from an empty tag list propagates through
the finite subtraction, the multiplication by `0.2 > 0` and the addition,
which is exactly `WithBot.map` of the finite computation. -/
def conceptAdjustedScore (obs : ObservationRecord) (now maxAgeMs : ℚ) : WithBot ℚ :=
  match obs.concepts with
  | some f =>
    if f.raw ≠ "" then
      match f.parse with
      | some concepts =>
        (maxConceptWeight concepts).map
          (fun m => agedScore obs now maxAgeMs + (m - 0.5) * 0.2)
      | none => ↑(agedScore obs now maxAgeMs)
    else ↑(agedScore obs now maxAgeMs)
  | none => ↑(agedScore obs now maxAgeMs)

/-- `obs.facts ? JSON.parse(obs.facts).length : 0`.  The parse is **not**
wrapped in a `try`, so a throwing parse (`none`) aborts the whole scoring
call. -/
def factsCountOf (obs : ObservationRecord) : Option ℕ :=
  match obs.facts with
  | some f => if f.raw ≠ "" then f.parse.map List.length else some 0
  | none => some 0

/-- `obs.narrative?.length ?? 0`. -/
def narrativeLength (obs : ObservationRecord) : ℕ :=
  match obs.narrative with
  | some s => s.length
  | none => 0

/-- `contentScore = Math.min(1, (narrativeLength / 500 + factsCount / 5) / 2)`. -/
def contentScore (obs : ObservationRecord) (factsCount : ℕ) : ℚ :=
  min 1 ((narrativeLength obs / 500 + (factsCount : ℚ) / 5) / 2)

/-- `Math.max(0, Math.min(1, score))`, with `-Infinity` clamped up to `0`. -/
def clampScore (s : WithBot ℚ) : ℚ :=
  (max 0 (min 1 s)).unbot' 0

/-- `calculateImportanceScore(obs, now, maxAgeMs)`: `none` models the uncaught
exception thrown when the `facts` column is truthy but unparseable. -/
def calculateImportanceScore (obs : ObservationRecord) (now maxAgeMs : ℚ) : Option ℚ :=
  (factsCountOf obs).map (fun factsCount =>
    clampScore ((conceptAdjustedScore obs now maxAgeMs).map
      (fun s => s + contentScore obs factsCount * 0.1)))

/-- `if (f) text += f + ' '` for a plain optional string column. -/
def appendOpt (text : String) (f : Option String) : String :=
  match f with
  | some s => if s ≠ "" then text ++ s ++ " " else text
  | none => text

/-- `if (f) text += f + ' '` for a serialized column (the raw text is
appended). -/
def appendField (text : String) (f : Option SerializedField) : String :=
  match f with
  | some g => if g.raw ≠ "" then text ++ g.raw ++ " " else text
  | none => text

/-- The `text` accumulated by `estimateTokens`. -/
def tokenText (obs : ObservationRecord) : String :=
  appendField (appendField (appendOpt (appendOpt (appendOpt ""
    obs.title) obs.subtitle) obs.narrative) obs.facts) obs.concepts

/-- `estimateTokens(obs) = Math.ceil(text.length / 4)`. -/
def estimateTokens (obs : ObservationRecord) : ℤ :=
  ⌈((tokenText obs).length : ℚ) / 4⌉

/-- `generateReasons(obs, score, now, maxAgeMs)`. -/
def generateReasons (obs : ObservationRecord) (score : ℚ) (now maxAgeMs : ℚ) :
    List String :=
  let ageDays : ℤ := ⌊(now - obs.created_at_epoch) / (24 * 60 * 60 * 1000)⌋
  (if ageDays > 30 then [toString ageDays ++ " days old"] else [])
    ++ (if TYPE_WEIGHTS obs.type < 0.6 then ["Low-priority type: " ++ obs.type] else [])
    ++ (if narrativeLength obs < 50 then ["Minimal content"] else [])
    ++ (if score < 0.2 then ["Very low importance score"] else [])

/-- The `observations` table behind `SessionStore`. -/
structure SessionStore where
  observations : List ObservationRecord
deriving DecidableEq

/-- A `ShrinkCandidate`. -/
structure ShrinkCandidate where
  id : ℤ
  title : Option String
  type : String
  project : String
  created_at_epoch : ℚ
  score : ℚ
  reasons : List String
  tokenCount : ℤ
deriving DecidableEq

/-- A `ShrinkAnalysis`. -/
structure ShrinkAnalysis where
  candidates : List ShrinkCandidate
  totalTokensSaved : ℤ
  observationsToRemove : ℕ
  totalObservations : ℕ
deriving DecidableEq

/-- `ShrinkOptions`: every field optional (`undefined` = `none`). -/
structure ShrinkOptions where
  project : Option String
  targetReduction : Option ℚ
  minAge : Option ℚ
  maxAge : Option ℚ
  minScore : Option ℚ
deriving DecidableEq

/-- The empty options object `{}`. -/
def defaultOptions : ShrinkOptions := ⟨none, none, none, none, none⟩

/-- The `AND project = ?` clause: appended to either query exactly when the
`project` option is truthy (`if (project)`). -/
def projectFilter (project : Option String) (o : ObservationRecord) : Bool :=
  match project with
  | some p => if p ≠ "" then o.project = p else true
  | none => true

/-- `SELECT * FROM observations WHERE created_at_epoch < ? [AND project = ?]
ORDER BY created_at_epoch ASC`, the rows being scanned in stored order. -/
def scanObservations (store : SessionStore) (cutoff : ℚ) (project : Option String) :
    List ObservationRecord :=
  (store.observations.filter
      (fun o => decide (o.created_at_epoch < cutoff) && projectFilter project o)).mergeSort
    (fun a b => decide (a.created_at_epoch ≤ b.created_at_epoch))

/-- `SELECT COUNT(*) FROM observations [WHERE project = ?]`. -/
def countObservations (store : SessionStore) (project : Option String) : ℕ :=
  (store.observations.filter (projectFilter project)).length

/-- The candidate record pushed by the loop body of `analyze`. -/
def mkCandidate (o : ObservationRecord) (score : ℚ) (now maxAgeMs : ℚ) :
    ShrinkCandidate :=
  { id := o.id
    title := o.title
    type := o.type
    project := o.project
    created_at_epoch := o.created_at_epoch
    score := score
    reasons := generateReasons o score now maxAgeMs
    tokenCount := estimateTokens o }

/-- The candidate-collecting loop of `analyze`: each scanned observation is
scored (an uncaught scoring exception aborts the whole call) and pushed when
`score < minScore`. -/
def buildCandidates (now maxAgeMs minScore : ℚ) :
    List ObservationRecord → Option (List ShrinkCandidate)
  | [] => some []
  | o :: rest =>
    match calculateImportanceScore o now maxAgeMs with
    | none => none
    | some score =>
      (buildCandidates now maxAgeMs minScore rest).map (fun tail =>
        if score < minScore then mkCandidate o score now maxAgeMs :: tail else tail)

/-- `analyze(options)` at instant `now` (`Date.now()`), over the modelled
store.  `none` models the exception propagated out of the scoring loop. -/
def analyze (store : SessionStore) (options : ShrinkOptions) (now : ℚ) :
    Option ShrinkAnalysis :=
  let targetReduction := options.targetReduction.getD 0.3
  let minAge := options.minAge.getD 7
  let maxAge := options.maxAge.getD 180
  let minScore := options.minScore.getD 0.6
  let minAgeMs := minAge * 24 * 60 * 60 * 1000
  let maxAgeMs := maxAge * 24 * 60 * 60 * 1000
  let observations := scanObservations store (now - minAgeMs) options.project
  let totalObservations := countObservations store options.project
  (buildCandidates now maxAgeMs minScore observations).map (fun candidates =>
    let sorted := candidates.mergeSort (fun a b => decide (a.score ≤ b.score))
    let targetCount : ℤ := max 1 ⌊(totalObservations : ℚ) * targetReduction⌋
    let finalCandidates := sorted.take targetCount.toNat
    { candidates := finalCandidates
      totalTokensSaved := (finalCandidates.map ShrinkCandidate.tokenCount).sum
      observationsToRemove := finalCandidates.length
      totalObservations := totalObservations })

/-- The truthy fields of an observation, in the order in which
`estimateTokens` visits them (the "present fields" of the spec). -/
def presentFields (obs : ObservationRecord) : List String :=
  ([obs.title, obs.subtitle, obs.narrative, obs.facts.map SerializedField.raw,
      obs.concepts.map SerializedField.raw].filterMap id).filter (fun s => s ≠ "")

/-- Token estimate as the spec words it: the present fields joined with
separating spaces (no trailing space), then `ceil(length / 4)`. -/
def specTokensJoin (obs : ObservationRecord) : ℤ :=
  ⌈((String.intercalate " " (presentFields obs)).length : ℚ) / 4⌉

/-- The text the code actually measures, described spec-side: each present
field followed by one trailing space, concatenated in order. -/
def specTrailingText (obs : ObservationRecord) : String :=
  (presentFields obs).foldr (fun s acc => s ++ " " ++ acc) ""

/-- Token estimate over the trailing-space concatenation. -/
def specTokensTrailing (obs : ObservationRecord) : ℤ :=
  ⌈((specTrailingText obs).length : ℚ) / 4⌉

/-- Character contribution of a plain optional column to the measured text:
nothing when absent or empty, its length plus the trailing space otherwise. -/
def fieldContribOpt : Option String → ℕ
  | none => 0
  | some s => if s = "" then 0 else s.length + 1

/-- Character contribution of a serialized column to the measured text. -/
def fieldContribField : Option SerializedField → ℕ
  | none => 0
  | some g => if g.raw = "" then 0 else g.raw.length + 1

/-- The maximum per-tag weight of a non-empty tag list, as the spec words
it. -/
def specMaxTagWeight : String → List String → ℚ
  | c, [] => CONCEPT_WEIGHTS c
  | c, d :: ds => max (CONCEPT_WEIGHTS c) (specMaxTagWeight d ds)

/-- Modelled from the spec: `SessionStore.deleteObservationById` lives in
`src/services/sqlite/SessionStore.ts`, which is not among the available
sources.  Per the spec, the store exposes "point-delete by identifier
returning a success/failure boolean", and "deleting an already-deleted
identifier must report it as a failure, not raise an unhandled fault". -/
def deleteObservationById (store : SessionStore) (id : ℤ) : Bool × SessionStore :=
  if store.observations.any (fun o => decide (o.id = id)) then
    (true, ⟨store.observations.filter (fun o => !(decide (o.id = id)))⟩)
  else
    (false, store)

/-- The result of `executeShrink`, together with the store it leaves behind. -/
structure ExecuteResult where
  deleted : ℕ
  failed : ℕ
  store : SessionStore
deriving DecidableEq

/-- `executeShrink(observationIds)`: one independent delete attempt per
identifier, counting successes and failures. -/
def executeShrink (store : SessionStore) : List ℤ → ExecuteResult
  | [] => ⟨0, 0, store⟩
  | id :: rest =>
    let d := deleteObservationById store id
    let r := executeShrink d.2 rest
    if d.1 then ⟨r.deleted + 1, r.failed, r.store⟩
    else ⟨r.deleted, r.failed + 1, r.store⟩

/-! Concrete fixtures used by the claim theorems and witnesses. -/

/-- The observation of the spec's concrete scenario: category `change`,
created 400 days before `now` (epoch 0 against `now = 400 * 86400000`),
a 20-character narrative, no tags, no facts. -/
def obsC1 : ObservationRecord :=
  ⟨1, none, none, some "aaaaaaaaaaaaaaaaaaaa", none, none, "change", "p", 0⟩

/-- A bare observation: no text fields at all. -/
def obsPlain : ObservationRecord :=
  ⟨1, none, none, none, none, none, "change", "p", 0⟩

/-- A store holding only `obsC1`. -/
def storeC1 : SessionStore := ⟨[obsC1]⟩

/-- The candidate record `analyze` derives from `obsC1` at
`now = 34560000000` with default options. -/
def candC1 : ShrinkCandidate :=
  ⟨1, none, "change", "p", 0, 0.237,
    ["400 days old", "Low-priority type: change", "Minimal content"], 6⟩

/-- The analysis `analyze` produces on `storeC1` with default options at
`now = 34560000000`. -/
def analysisC1 : ShrinkAnalysis := ⟨[candC1], 6, 1, 1⟩

/-- A store holding only `obsPlain`. -/
def storePlain : SessionStore := ⟨[obsPlain]⟩

/-- An observation whose `facts` column is truthy but unparseable. -/
def obsBadFacts : ObservationRecord :=
  ⟨1, none, none, none, some ⟨"oops", none⟩, none, "change", "p", 0⟩

/-- A store holding only `obsBadFacts`. -/
def storeBadFacts : SessionStore := ⟨[obsBadFacts]⟩

/-- An observation whose `concepts` column is truthy but unparseable. -/
def obsBadConcepts : ObservationRecord :=
  ⟨1, none, none, none, none, some ⟨"oops", none⟩, "change", "p", 0⟩

/-- An observation tagged `gotcha`. -/
def obsTagged : ObservationRecord :=
  ⟨1, none, none, none, none, some ⟨"[\"gotcha\"]", some ["gotcha"]⟩, "change", "p", 0⟩

/-- An observation whose `concepts` column deserializes to the empty list. -/
def obsEmptyTags : ObservationRecord :=
  ⟨1, none, none, none, none, some ⟨"[]", some []⟩, "decision", "p", 0⟩

/-- An observation whose only present field is a 4-character title. -/
def obsTitleOnly : ObservationRecord :=
  ⟨1, some "abcd", none, none, none, none, "change", "p", 0⟩

/-! General lemmas about the scoring pipeline. -/

theorem clampScore_coe (x : ℚ) : clampScore (x : WithBot ℚ) = max 0 (min 1 x) := by
  unfold clampScore
  rw [← WithBot.coe_one, ← WithBot.coe_zero, ← WithBot.coe_min, ← WithBot.coe_max,
    WithBot.unbot'_coe]

theorem clampScore_bot : clampScore (⊥ : WithBot ℚ) = 0 := by
  simp [clampScore]

theorem clampScore_nonneg (s : WithBot ℚ) : 0 ≤ clampScore s := by
  induction s using WithBot.recBotCoe with
  | bot => rw [clampScore_bot]
  | coe x =>
    rw [clampScore_coe]
    exact le_max_left 0 _

theorem clampScore_le_one (s : WithBot ℚ) : clampScore s ≤ 1 := by
  induction s using WithBot.recBotCoe with
  | bot => rw [clampScore_bot]; norm_num
  | coe x =>
    rw [clampScore_coe]
    exact max_le (by norm_num) (min_le_left 1 _)

theorem clampScore_mono {x y : WithBot ℚ} (h : x ≤ y) : clampScore x ≤ clampScore y := by
  induction x using WithBot.recBotCoe with
  | bot => rw [clampScore_bot]; exact clampScore_nonneg y
  | coe a =>
    induction y using WithBot.recBotCoe with
    | bot => exact absurd h (by simp)
    | coe b =>
      rw [WithBot.coe_le_coe] at h
      rw [clampScore_coe, clampScore_coe]
      exact max_le_max le_rfl (min_le_min le_rfl h)

theorem score_bounds (obs : ObservationRecord) (now maxAgeMs q : ℚ)
    (h : calculateImportanceScore obs now maxAgeMs = some q) : 0 ≤ q ∧ q ≤ 1 := by
  rw [calculateImportanceScore] at h
  rcases hfc : factsCountOf obs with _ | n <;> rw [hfc] at h
  · simp at h
  · simp only [Option.map_some', Option.some.injEq] at h
    rw [← h]
    exact ⟨clampScore_nonneg _, clampScore_le_one _⟩

theorem maxConceptWeight_cons (c : String) (cs : List String) :
    maxConceptWeight (c :: cs) = ↑(specMaxTagWeight c cs) := by
  induction cs generalizing c with
  | nil =>
    show max ((CONCEPT_WEIGHTS c : ℚ) : WithBot ℚ) ⊥ = ((specMaxTagWeight c [] : ℚ) : WithBot ℚ)
    rw [specMaxTagWeight]
    exact max_eq_left bot_le
  | cons d ds ih =>
    show max ((CONCEPT_WEIGHTS c : ℚ) : WithBot ℚ) (maxConceptWeight (d :: ds))
        = ((specMaxTagWeight c (d :: ds) : ℚ) : WithBot ℚ)
    rw [ih d, specMaxTagWeight, ← WithBot.coe_max]

theorem TYPE_WEIGHTS_bounds (t : String) : 0.4 ≤ TYPE_WEIGHTS t ∧ TYPE_WEIGHTS t ≤ 1 := by
  rw [TYPE_WEIGHTS]
  split_ifs <;> norm_num

theorem typeAdjustedScore_nonneg (obs : ObservationRecord) : 0 ≤ typeAdjustedScore obs := by
  obtain ⟨hl, hu⟩ := TYPE_WEIGHTS_bounds obs.type
  rw [typeAdjustedScore]
  nlinarith [hl, hu]

theorem withBotMapAddMono {x y : WithBot ℚ} (c : ℚ) (h : x ≤ y) :
    x.map (fun s => s + c) ≤ y.map (fun s => s + c) := by
  induction x using WithBot.recBotCoe with
  | bot => simp only [WithBot.map_bot]; exact bot_le
  | coe a =>
    induction y using WithBot.recBotCoe with
    | bot => exact absurd h (by simp)
    | coe b =>
      rw [WithBot.coe_le_coe] at h
      simp only [WithBot.map_coe, WithBot.coe_le_coe]
      exact add_le_add_right h c

theorem agedScore_anti (obs : ObservationRecord) (now maxAgeMs e₁ e₂ : ℚ)
    (hm : 0 < maxAgeMs) (he : e₂ ≤ e₁) :
    agedScore { obs with created_at_epoch := e₂ } now maxAgeMs
      ≤ agedScore { obs with created_at_epoch := e₁ } now maxAgeMs := by
  have hT : 0 ≤ typeAdjustedScore obs := typeAdjustedScore_nonneg obs
  have hd : ageDecay { obs with created_at_epoch := e₂ } now maxAgeMs
      ≤ ageDecay { obs with created_at_epoch := e₁ } now maxAgeMs := by
    rw [ageDecay, ageDecay]
    dsimp only
    apply max_le_max le_rfl
    have hdiv : (now - e₁) / maxAgeMs ≤ (now - e₂) / maxAgeMs := by
      gcongr
    linarith
  rw [agedScore, agedScore]
  have hT₂ : typeAdjustedScore { obs with created_at_epoch := e₂ } = typeAdjustedScore obs := rfl
  have hT₁ : typeAdjustedScore { obs with created_at_epoch := e₁ } = typeAdjustedScore obs := rfl
  rw [hT₂, hT₁]
  apply mul_le_mul_of_nonneg_left _ hT
  linarith

theorem conceptAdjustedScore_anti (obs : ObservationRecord) (now maxAgeMs e₁ e₂ : ℚ)
    (hm : 0 < maxAgeMs) (he : e₂ ≤ e₁) :
    conceptAdjustedScore { obs with created_at_epoch := e₂ } now maxAgeMs
      ≤ conceptAdjustedScore { obs with created_at_epoch := e₁ } now maxAgeMs := by
  have hag := agedScore_anti obs now maxAgeMs e₁ e₂ hm he
  have hc₂ : ({ obs with created_at_epoch := e₂ } : ObservationRecord).concepts
      = obs.concepts := rfl
  have hc₁ : ({ obs with created_at_epoch := e₁ } : ObservationRecord).concepts
      = obs.concepts := rfl
  rcases hc : obs.concepts with _ | f
  · simp only [conceptAdjustedScore, hc₂, hc₁, hc]
    exact WithBot.coe_le_coe.mpr hag
  · by_cases hr : f.raw = ""
    · simp only [conceptAdjustedScore, hc₂, hc₁, hc, hr, ne_eq, not_true_eq_false,
        Bool.false_eq_true, if_false, ite_false]
      exact WithBot.coe_le_coe.mpr hag
    · rcases hp : f.parse with _ | l
      · simp only [conceptAdjustedScore, hc₂, hc₁, hc, hr, ne_eq, not_false_eq_true,
          if_true, ite_true, hp]
        exact WithBot.coe_le_coe.mpr hag
      · rcases l with _ | ⟨c, cs⟩
        · simp only [conceptAdjustedScore, hc₂, hc₁, hc, hr, ne_eq, not_false_eq_true,
            if_true, ite_true, hp, maxConceptWeight, List.foldr_nil, WithBot.map_bot,
            le_refl]
        · simp only [conceptAdjustedScore, hc₂, hc₁, hc, hr, ne_eq, not_false_eq_true,
            if_true, ite_true, hp, maxConceptWeight_cons, WithBot.map_coe,
            WithBot.coe_le_coe]
          exact add_le_add_right hag _

/-! Lemmas about the candidate-collecting loop of `analyze`. -/

theorem buildCandidates_length (now maxAgeMs minScore : ℚ) (l : List ObservationRecord)
    (pool : List ShrinkCandidate) (h : buildCandidates now maxAgeMs minScore l = some pool) :
    pool.length = l.countP (fun o =>
      match calculateImportanceScore o now maxAgeMs with
      | some s => decide (s < minScore)
      | none => false) := by
  induction l generalizing pool with
  | nil =>
    rw [buildCandidates] at h
    simp only [Option.some.injEq] at h
    subst h
    rfl
  | cons o rest ih =>
    rw [buildCandidates] at h
    rcases hs : calculateImportanceScore o now maxAgeMs with _ | s <;> rw [hs] at h
    · simp at h
    · obtain ⟨tail, htail, hpool⟩ := Option.map_eq_some'.mp h
      subst hpool
      rw [List.countP_cons]
      by_cases hlt : s < minScore
      · rw [if_pos hlt]
        simp [List.length_cons, ih tail htail, hs, hlt]
      · rw [if_neg hlt]
        simp [ih tail htail, hs, hlt]

theorem buildCandidates_mem (now maxAgeMs minScore : ℚ) (l : List ObservationRecord)
    (pool : List ShrinkCandidate) (h : buildCandidates now maxAgeMs minScore l = some pool)
    (c : ShrinkCandidate) (hc : c ∈ pool) :
    ∃ o ∈ l, calculateImportanceScore o now maxAgeMs = some c.score ∧ c.score < minScore ∧
      c = mkCandidate o c.score now maxAgeMs := by
  induction l generalizing pool with
  | nil =>
    rw [buildCandidates] at h
    simp only [Option.some.injEq] at h
    subst h
    simp at hc
  | cons o rest ih =>
    rw [buildCandidates] at h
    rcases hs : calculateImportanceScore o now maxAgeMs with _ | s <;> rw [hs] at h
    · simp at h
    · obtain ⟨tail, htail, hpool⟩ := Option.map_eq_some'.mp h
      subst hpool
      by_cases hlt : s < minScore
      · rw [if_pos hlt] at hc
        rcases List.mem_cons.mp hc with hceq | hctail
        · subst hceq
          exact ⟨o, List.mem_cons_self o rest, hs, hlt, rfl⟩
        · obtain ⟨o', ho', h1, h2, h3⟩ := ih tail htail hctail
          exact ⟨o', List.mem_cons_of_mem o ho', h1, h2, h3⟩
      · rw [if_neg hlt] at hc
        obtain ⟨o', ho', h1, h2, h3⟩ := ih tail htail hc
        exact ⟨o', List.mem_cons_of_mem o ho', h1, h2, h3⟩

theorem scoreLE_trans : ∀ a b c : ShrinkCandidate,
    decide (a.score ≤ b.score) = true → decide (b.score ≤ c.score) = true →
    decide (a.score ≤ c.score) = true := by
  intro a b c hab hbc
  rw [decide_eq_true_eq] at hab hbc ⊢
  exact le_trans hab hbc

theorem scoreLE_total : ∀ a b : ShrinkCandidate,
    (decide (a.score ≤ b.score) || decide (b.score ≤ a.score)) = true := by
  intro a b
  rcases le_total a.score b.score with h | h <;> simp [h]

/-! Length accounting for `estimateTokens`. -/

theorem length_space : (" " : String).length = 1 := rfl

theorem appendOpt_length (text : String) (f : Option String) :
    (appendOpt text f).length = text.length + fieldContribOpt f := by
  rcases f with _ | s
  · rfl
  · rw [appendOpt, fieldContribOpt]
    by_cases h : s = ""
    · simp [h]
    · rw [if_pos h, if_neg h]
      simp only [String.length_append, length_space]
      omega

theorem appendField_length (text : String) (f : Option SerializedField) :
    (appendField text f).length = text.length + fieldContribField f := by
  rcases f with _ | g
  · rfl
  · rw [appendField, fieldContribField]
    by_cases h : g.raw = ""
    · simp [h]
    · rw [if_pos h, if_neg h]
      simp only [String.length_append, length_space]
      omega

theorem tokenText_length_sum (obs : ObservationRecord) :
    (tokenText obs).length
      = fieldContribOpt obs.title + fieldContribOpt obs.subtitle
        + fieldContribOpt obs.narrative + fieldContribField obs.facts
        + fieldContribField obs.concepts := by
  rw [tokenText, appendField_length, appendField_length, appendOpt_length,
    appendOpt_length, appendOpt_length]
  simp

theorem foldr_trailing_length (l : List String) :
    (l.foldr (fun s acc => s ++ " " ++ acc) "").length
      = (l.map String.length).sum + l.length := by
  induction l with
  | nil => rfl
  | cons a as ih =>
    simp only [List.foldr_cons, String.length_append, ih, List.map_cons, List.sum_cons,
      List.length_cons, length_space]
    omega

theorem filter_present_sum (xs : List (Option String)) :
    (((xs.filterMap id).filter (fun s => s ≠ "")).map String.length).sum
      + ((xs.filterMap id).filter (fun s => s ≠ "")).length
      = (xs.map fieldContribOpt).sum := by
  induction xs with
  | nil => rfl
  | cons x rest ih =>
    rcases x with _ | s
    · simpa [List.filterMap_cons, fieldContribOpt] using ih
    · by_cases h : s = ""
      · subst h
        simp only [List.filterMap_cons, id_eq, List.map_cons, List.sum_cons,
          fieldContribOpt, if_pos rfl]
        rw [List.filter_cons_of_neg (by simp)]
        simpa using ih
      · simp only [List.filterMap_cons, id_eq, List.map_cons, List.sum_cons,
          fieldContribOpt, if_neg h]
        rw [List.filter_cons_of_pos (by simp [h])]
        simp only [List.map_cons, List.sum_cons, List.length_cons]
        omega

theorem contrib_map_raw (f : Option SerializedField) :
    fieldContribOpt (f.map SerializedField.raw) = fieldContribField f := by
  rcases f with _ | g <;> rfl

theorem trailing_length (obs : ObservationRecord) :
    (specTrailingText obs).length = (tokenText obs).length := by
  rw [specTrailingText, foldr_trailing_length, tokenText_length_sum, presentFields,
    filter_present_sum]
  simp only [List.map_cons, List.map_nil, List.sum_cons, List.sum_nil, contrib_map_raw]
  omega

/-! Concrete evaluations used by the claim theorems and witnesses. -/

theorem scan_singleton_eval (store : SessionStore) (o : ObservationRecord) (cutoff : ℚ)
    (hs : store.observations = [o]) (h : o.created_at_epoch < cutoff) :
    scanObservations store cutoff none = [o] := by
  have hcond : (decide (o.created_at_epoch < cutoff) && projectFilter none o) = true := by
    simp [projectFilter, h]
  rw [scanObservations, hs, List.filter_singleton, hcond]
  simp

theorem count_singleton (store : SessionStore) (o : ObservationRecord)
    (hs : store.observations = [o]) : countObservations store none = 1 := by
  rw [countObservations, hs]
  simp [projectFilter]

theorem estimateTokens_obsC1 : estimateTokens obsC1 = 6 := by
  have hl : (tokenText obsC1).length = 21 := by decide
  rw [estimateTokens, hl]
  rw [show ((21 : ℕ) : ℚ) / 4 = 21 / 4 by norm_num]
  rw [Int.ceil_eq_iff]
  norm_num

theorem score_obsC1 : calculateImportanceScore obsC1 34560000000
    ((180 : ℚ) * 24 * 60 * 60 * 1000) = some 0.237 := by
  have hw : TYPE_WEIGHTS "change" = 0.4 := by simp [TYPE_WEIGHTS]
  have hn : narrativeLength obsC1 = 20 := by decide
  have hf : obsC1.facts = none := rfl
  have hc : obsC1.concepts = none := rfl
  have he : obsC1.created_at_epoch = 0 := rfl
  have hty : obsC1.type = "change" := rfl
  simp only [calculateImportanceScore, factsCountOf, conceptAdjustedScore,
    hf, hc, he, hty, hn, hw, WithBot.map_coe, clampScore_coe, contentScore,
    agedScore, typeAdjustedScore, ageDecay, Option.map_some']
  norm_num [max_def, min_def]

theorem reasons_obsC1 : generateReasons obsC1 0.237 34560000000
    ((180 : ℚ) * 24 * 60 * 60 * 1000)
    = ["400 days old", "Low-priority type: change", "Minimal content"] := by
  have hw : TYPE_WEIGHTS "change" = 0.4 := by simp [TYPE_WEIGHTS]
  have hn : narrativeLength obsC1 = 20 := by decide
  have he : obsC1.created_at_epoch = 0 := rfl
  have hty : obsC1.type = "change" := rfl
  have ht : toString (400 : ℤ) = "400" := by decide
  have hd : (⌊((34560000000 : ℚ) - 0) / (24 * 60 * 60 * 1000)⌋ : ℤ) = 400 := by norm_num
  have hs1 : "400" ++ " days old" = "400 days old" := rfl
  have hs2 : "Low-priority type: " ++ "change" = "Low-priority type: change" := rfl
  norm_num [generateReasons, he, hty, hn, hw, hd, ht, hs1, hs2]

theorem build_storeC1 : buildCandidates 34560000000 ((180 : ℚ) * 24 * 60 * 60 * 1000)
    ((0.6 : ℚ)) [obsC1] = some [candC1] := by
  rw [buildCandidates, score_obsC1, buildCandidates]
  dsimp only
  have hlt : (0.237 : ℚ) < 0.6 := by norm_num
  simp only [Option.map_some', Option.some.injEq]
  rw [if_pos hlt, mkCandidate, reasons_obsC1, estimateTokens_obsC1]
  rfl

theorem analyze_storeC1 : analyze storeC1 defaultOptions 34560000000 = some analysisC1 := by
  rw [analyze]
  simp only [defaultOptions, Option.getD_none]
  rw [scan_singleton_eval storeC1 obsC1 _ rfl (by norm_num [obsC1]), build_storeC1,
    count_singleton storeC1 obsC1 rfl]
  simp only [Option.map_some', Option.some.injEq]
  have hfl : (⌊((1 : ℕ) : ℚ) * 0.3⌋ : ℤ) = 0 := by norm_num
  rw [hfl]
  simp [analysisC1, candC1]

theorem score_plain (e now maxAgeMs : ℚ) :
    calculateImportanceScore { obsPlain with created_at_epoch := e } now maxAgeMs
      = some (clampScore ↑(agedScore { obsPlain with created_at_epoch := e } now maxAgeMs)) := by
  have hf : obsPlain.facts = none := rfl
  have hc : obsPlain.concepts = none := rfl
  have hn : obsPlain.narrative = none := rfl
  simp only [calculateImportanceScore, factsCountOf, hf, hc, conceptAdjustedScore,
    WithBot.map_coe, Option.map_some', contentScore, narrativeLength, hn]
  norm_num [min_def]

/-! The claim theorems. -/

/-- C1: for an observation of category `change` created 400 days before `now`
(with `maxAge = 180` days), with a 20-character narrative, no concept tags and
no facts, `calculateImportanceScore` returns exactly `0.237`
(`(0.5 + (0.4 - 0.5) * 0.3) * 0.5 + 0.002`), and `generateReasons` returns
exactly `["400 days old", "Low-priority type: change", "Minimal content"]`,
with no fourth reason since the score is at least `0.2`. -/
theorem claim_C1_concrete_change_scenario :
    calculateImportanceScore obsC1 34560000000 ((180 : ℚ) * 24 * 60 * 60 * 1000)
      = some 0.237 ∧
    generateReasons obsC1 0.237 34560000000 ((180 : ℚ) * 24 * 60 * 60 * 1000)
      = ["400 days old", "Low-priority type: change", "Minimal content"] :=
  ⟨score_obsC1, reasons_obsC1⟩

/-- C2: whenever `analyze` returns an analysis, its candidate list is the
stable ascending-by-score sort of the below-threshold pool (scanned in query
order) truncated to `targetCount = max(1, ⌊totalObservations *
targetReduction⌋)`; the returned length is the minimum of the number of
eligible observations scoring below `minScore` and `targetCount`;
`totalObservations` is the full count in scope (not limited by `minAge`);
`observationsToRemove` equals the candidate count and `totalTokensSaved` is
the sum of `tokenCount` over the final candidates. -/
theorem claim_C2_analysis_shape (store : SessionStore) (options : ShrinkOptions) (now : ℚ)
    (a : ShrinkAnalysis) (h : analyze store options now = some a) :
    a.totalObservations = countObservations store options.project ∧
    (∃ pool, buildCandidates now (options.maxAge.getD 180 * 24 * 60 * 60 * 1000)
        (options.minScore.getD 0.6)
        (scanObservations store (now - options.minAge.getD 7 * 24 * 60 * 60 * 1000)
          options.project) = some pool ∧
      a.candidates = (pool.mergeSort fun x y => decide (x.score ≤ y.score)).take
        (max 1 ⌊(a.totalObservations : ℚ) * options.targetReduction.getD 0.3⌋).toNat) ∧
    List.Pairwise (fun x y => x.score ≤ y.score) a.candidates ∧
    (a.candidates.length : ℤ) = min
      (((scanObservations store (now - options.minAge.getD 7 * 24 * 60 * 60 * 1000)
          options.project).countP (fun o =>
        match calculateImportanceScore o now (options.maxAge.getD 180 * 24 * 60 * 60 * 1000) with
        | some s => decide (s < options.minScore.getD 0.6)
        | none => false) : ℕ) : ℤ)
      (max 1 ⌊(a.totalObservations : ℚ) * options.targetReduction.getD 0.3⌋) ∧
    a.observationsToRemove = a.candidates.length ∧
    a.totalTokensSaved = (a.candidates.map ShrinkCandidate.tokenCount).sum := by
  rw [analyze] at h
  obtain ⟨pool, hpool, ha⟩ := Option.map_eq_some'.mp h
  subst ha
  refine ⟨rfl, ⟨pool, hpool, rfl⟩, ?_, ?_, rfl, rfl⟩
  · exact List.Pairwise.imp (fun hab => of_decide_eq_true hab)
      (List.Pairwise.sublist (List.take_sublist _ _)
        (List.sorted_mergeSort scoreLE_trans scoreLE_total pool))
  · have hN : (((max 1 ⌊(countObservations store options.project : ℚ)
        * options.targetReduction.getD 0.3⌋).toNat : ℕ) : ℤ)
        = max 1 ⌊(countObservations store options.project : ℚ)
          * options.targetReduction.getD 0.3⌋ :=
      Int.toNat_of_nonneg (le_trans (by norm_num) (le_max_left 1 _))
    rw [List.length_take, (List.mergeSort_perm pool _).length_eq,
      buildCandidates_length _ _ _ _ _ hpool, Nat.cast_min, hN, min_comm]

/-- C2 witness: on a one-observation store with default options the analysis
returned by `analyze` satisfies the shape properties. -/
theorem claim_C2_analysis_shape_witness :
    List.Pairwise (fun x y : ShrinkCandidate => x.score ≤ y.score) analysisC1.candidates ∧
    analysisC1.observationsToRemove = analysisC1.candidates.length ∧
    analysisC1.totalTokensSaved = (analysisC1.candidates.map ShrinkCandidate.tokenCount).sum ∧
    analysisC1.totalObservations = countObservations storeC1 none := by
  obtain ⟨htot, -, hpair, -, hrem, htok⟩ :=
    claim_C2_analysis_shape storeC1 defaultOptions 34560000000 analysisC1 analyze_storeC1
  exact ⟨hpair, hrem, htok, htot⟩

/-- C3: every candidate returned by `analyze` has a clamped score in `[0, 1]`
strictly below `minScore` and a creation timestamp strictly older than `now`
minus `minAge`, and the number of returned candidates never exceeds
`max(1, ⌊totalObservations * targetReduction⌋)`. -/
theorem claim_C3_candidate_invariants (store : SessionStore) (options : ShrinkOptions)
    (now : ℚ) (a : ShrinkAnalysis) (h : analyze store options now = some a) :
    (∀ c ∈ a.candidates, 0 ≤ c.score ∧ c.score ≤ 1 ∧
      c.score < options.minScore.getD 0.6 ∧
      c.created_at_epoch < now - options.minAge.getD 7 * 24 * 60 * 60 * 1000) ∧
    (a.candidates.length : ℤ) ≤ max 1 ⌊(a.totalObservations : ℚ)
      * options.targetReduction.getD 0.3⌋ := by
  rw [analyze] at h
  obtain ⟨pool, hpool, ha⟩ := Option.map_eq_some'.mp h
  subst ha
  constructor
  · intro c hc
    have hc2 : c ∈ pool.mergeSort (fun x y => decide (x.score ≤ y.score)) :=
      List.mem_of_mem_take hc
    have hc3 : c ∈ pool := (List.mergeSort_perm pool _).mem_iff.mp hc2
    obtain ⟨o, ho, hcalc, hlt, hck⟩ := buildCandidates_mem _ _ _ _ _ hpool c hc3
    have hbounds := score_bounds o _ _ _ hcalc
    rw [scanObservations] at ho
    have hsc := (List.mergeSort_perm _ _).mem_iff.mp ho
    obtain ⟨-, hcond⟩ := List.mem_filter.mp hsc
    obtain ⟨hage, -⟩ := (Bool.and_eq_true _ _).mp hcond
    have hepoch := of_decide_eq_true hage
    have hce : c.created_at_epoch = o.created_at_epoch := by rw [hck]; rfl
    refine ⟨hbounds.1, hbounds.2, hlt, ?_⟩
    rw [hce]
    exact hepoch
  · have hN : (((max 1 ⌊(countObservations store options.project : ℚ)
        * options.targetReduction.getD 0.3⌋).toNat : ℕ) : ℤ)
        = max 1 ⌊(countObservations store options.project : ℚ)
          * options.targetReduction.getD 0.3⌋ :=
      Int.toNat_of_nonneg (le_trans (by norm_num) (le_max_left 1 _))
    exact le_of_le_of_eq (Nat.cast_le.mpr (List.length_take_le _ _)) hN

/-- C3 witness: the invariants hold for the concrete analysis of the
one-observation store. -/
theorem claim_C3_candidate_invariants_witness :
    (∀ c ∈ analysisC1.candidates, 0 ≤ c.score ∧ c.score ≤ 1 ∧ c.score < 0.6 ∧
      c.created_at_epoch < 34560000000 - (7 : ℚ) * 24 * 60 * 60 * 1000) ∧
    (analysisC1.candidates.length : ℤ)
      ≤ max 1 ⌊(analysisC1.totalObservations : ℚ) * 0.3⌋ :=
  claim_C3_candidate_invariants storeC1 defaultOptions 34560000000 analysisC1 analyze_storeC1

/-- C4: `executeShrink` attempts each deletion independently — counts over a
concatenation decompose, so one failure never aborts the remaining attempts —
`deleted + failed` always equals the length of the input list, and deleting an
identifier that no longer exists is counted as a failure, not raised as a
fault. -/
theorem claim_C4_execute_counts :
    (∀ (store : SessionStore) (ids : List ℤ),
      (executeShrink store ids).deleted + (executeShrink store ids).failed = ids.length)
    ∧ (∀ (store : SessionStore) (ids₁ ids₂ : List ℤ),
      executeShrink store (ids₁ ++ ids₂) =
        ⟨(executeShrink store ids₁).deleted
            + (executeShrink (executeShrink store ids₁).store ids₂).deleted,
          (executeShrink store ids₁).failed
            + (executeShrink (executeShrink store ids₁).store ids₂).failed,
          (executeShrink (executeShrink store ids₁).store ids₂).store⟩)
    ∧ (∀ (store : SessionStore) (id : ℤ),
      (∀ o ∈ store.observations, o.id ≠ id) → executeShrink store [id] = ⟨0, 1, store⟩) := by
  refine ⟨?_, ?_, ?_⟩
  · intro store ids
    induction ids generalizing store with
    | nil => rfl
    | cons id rest ih =>
      have h := ih (deleteObservationById store id).2
      simp only [executeShrink, List.length_cons]
      split <;> dsimp only <;> omega
  · intro store ids₁ ids₂
    induction ids₁ generalizing store with
    | nil => simp [executeShrink]
    | cons id rest ih =>
      simp only [List.cons_append, executeShrink]
      rcases hd : deleteObservationById store id with ⟨b, store'⟩
      cases b <;> simp [hd, ih, ExecuteResult.mk.injEq] <;> omega
  · intro store id h
    have hany : store.observations.any (fun o => decide (o.id = id)) = false := by
      simp only [List.any_eq_false, decide_eq_true_eq]
      exact h
    simp [executeShrink, deleteObservationById, hany]

/-- C4 witness: deleting a missing identifier on a one-observation store is an
ordinary counted failure, and counts always sum to the input length. -/
theorem claim_C4_execute_counts_witness :
    executeShrink storePlain [2] = ⟨0, 1, storePlain⟩ ∧
    (executeShrink storePlain [1, 1]).deleted + (executeShrink storePlain [1, 1]).failed = 2 := by
  constructor
  · exact claim_C4_execute_counts.2.2 storePlain 2 (by decide)
  · exact claim_C4_execute_counts.1 storePlain [1, 1]

/-- C5 counterexample: an observation whose `facts` column is truthy but
unparseable makes `calculateImportanceScore` throw (modelled as `none`), and
the whole `analyze` pass over a store containing it fails — refuting the
claim that a malformed facts field degrades gracefully. -/
theorem claim_C5_counterexample :
    calculateImportanceScore obsBadFacts 34560000000
      ((180 : ℚ) * 24 * 60 * 60 * 1000) = none ∧
    analyze storeBadFacts defaultOptions 34560000000 = none := by
  have hsc : calculateImportanceScore obsBadFacts 34560000000
      ((180 : ℚ) * 24 * 60 * 60 * 1000) = none := by
    simp [calculateImportanceScore, factsCountOf, obsBadFacts]
  refine ⟨hsc, ?_⟩
  rw [analyze]
  simp only [defaultOptions, Option.getD_none]
  rw [scan_singleton_eval storeBadFacts obsBadFacts _ rfl (by norm_num [obsBadFacts]),
    buildCandidates, hsc]
  rfl

/-- C5 amended: only the `concepts` signal degrades gracefully — an
observation with an unparseable `concepts` field scores exactly as if it had
no concepts at all — while a truthy-but-unparseable `facts` field aborts the
scoring call (`none`). -/
theorem claim_C5_amended_graceful_concepts :
    (∀ (obs : ObservationRecord) (now maxAgeMs : ℚ) (f : SerializedField),
      obs.concepts = some f → f.parse = none →
      calculateImportanceScore obs now maxAgeMs
        = calculateImportanceScore { obs with concepts := none } now maxAgeMs)
    ∧ (∀ (obs : ObservationRecord) (now maxAgeMs : ℚ),
      factsCountOf obs = none → calculateImportanceScore obs now maxAgeMs = none) := by
  constructor
  · intro obs now maxAgeMs f h1 h2
    have e1 : conceptAdjustedScore obs now maxAgeMs = ↑(agedScore obs now maxAgeMs) := by
      simp only [conceptAdjustedScore, h1, h2, ite_self]
    have e2 : conceptAdjustedScore { obs with concepts := none } now maxAgeMs
        = ↑(agedScore obs now maxAgeMs) := rfl
    simp only [calculateImportanceScore, e1, e2]
    rfl
  · intro obs now maxAgeMs h
    simp [calculateImportanceScore, h]

/-- C5 amended witness: a concrete observation with unparseable concepts
scores exactly as the same observation with no concepts. -/
theorem claim_C5_amended_graceful_concepts_witness :
    calculateImportanceScore obsBadConcepts 0 1
      = calculateImportanceScore { obsBadConcepts with concepts := none } 0 1 :=
  claim_C5_amended_graceful_concepts.1 obsBadConcepts 0 1 ⟨"oops", none⟩ rfl rfl

/-- C6: an observation with a non-empty parsed tag list is scored with the
adjustment `(maxWeight - 0.5) * 0.2`, where `maxWeight` is the maximum
per-tag weight from the fixed table (unknown tags weigh `0.5`); observations
without concept tags get no such adjustment; and the table holds exactly the
advertised values. -/
theorem claim_C6_concept_bonus :
    (∀ (obs : ObservationRecord) (now maxAgeMs : ℚ) (f : SerializedField)
        (c : String) (cs : List String),
      obs.concepts = some f → f.raw ≠ "" → f.parse = some (c :: cs) →
      calculateImportanceScore obs now maxAgeMs = (factsCountOf obs).map (fun fc =>
        clampScore ↑(agedScore obs now maxAgeMs + (specMaxTagWeight c cs - 0.5) * 0.2
          + contentScore obs fc * 0.1)))
    ∧ (∀ (obs : ObservationRecord) (now maxAgeMs : ℚ), fieldTruthy obs.concepts = false →
      calculateImportanceScore obs now maxAgeMs = (factsCountOf obs).map (fun fc =>
        clampScore ↑(agedScore obs now maxAgeMs + contentScore obs fc * 0.1)))
    ∧ CONCEPT_WEIGHTS "problem-solution" = 1 ∧ CONCEPT_WEIGHTS "trade-off" = 0.9
    ∧ CONCEPT_WEIGHTS "why-it-exists" = 0.8 ∧ CONCEPT_WEIGHTS "gotcha" = 0.8
    ∧ CONCEPT_WEIGHTS "how-it-works" = 0.7 ∧ CONCEPT_WEIGHTS "pattern" = 0.6
    ∧ CONCEPT_WEIGHTS "what-changed" = 0.4
    ∧ (∀ t : String, t ∉ (["problem-solution", "trade-off", "why-it-exists", "gotcha",
        "how-it-works", "pattern", "what-changed"] : List String) →
        CONCEPT_WEIGHTS t = 0.5) := by
  refine ⟨?_, ?_, by simp [CONCEPT_WEIGHTS], by simp [CONCEPT_WEIGHTS], by simp [CONCEPT_WEIGHTS],
    by simp [CONCEPT_WEIGHTS], by simp [CONCEPT_WEIGHTS], by simp [CONCEPT_WEIGHTS],
    by simp [CONCEPT_WEIGHTS], ?_⟩
  · intro obs now maxAgeMs f c cs h1 h2 h3
    have e : conceptAdjustedScore obs now maxAgeMs
        = ↑(agedScore obs now maxAgeMs + (specMaxTagWeight c cs - 0.5) * 0.2) := by
      simp only [conceptAdjustedScore, h1, h2, ne_eq, not_false_eq_true, if_true, h3,
        maxConceptWeight_cons, WithBot.map_coe]
    simp only [calculateImportanceScore, e, WithBot.map_coe]
  · intro obs now maxAgeMs h
    rcases hc : obs.concepts with _ | f
    · simp only [calculateImportanceScore, conceptAdjustedScore, hc, WithBot.map_coe]
    · have hraw : f.raw = "" := by
        rw [hc] at h
        simpa [fieldTruthy] using h
      simp [calculateImportanceScore, conceptAdjustedScore, hc, hraw]
  · intro t ht
    simp only [List.mem_cons, not_or] at ht
    obtain ⟨n1, n2, n3, n4, n5, n6, n7, -⟩ := ht
    simp [CONCEPT_WEIGHTS, n1, n2, n3, n4, n5, n6, n7]

/-- C6 witness: the tagged-branch equation instantiated at a concrete
`gotcha`-tagged observation. -/
theorem claim_C6_concept_bonus_witness :
    calculateImportanceScore obsTagged 0 15552000000
      = (factsCountOf obsTagged).map (fun fc =>
          clampScore ↑(agedScore obsTagged 0 15552000000
            + (specMaxTagWeight "gotcha" [] - 0.5) * 0.2 + contentScore obsTagged fc * 0.1)) :=
  claim_C6_concept_bonus.1 obsTagged 0 15552000000 ⟨"[\"gotcha\"]", some ["gotcha"]⟩ "gotcha" []
    rfl (by decide) rfl

/-- C7 counterexample: on an observation whose only present field is the
4-character title `"abcd"`, the code computes `ceil(5 / 4) = 2` (trailing
space included) while the claimed space-separated join gives
`ceil(4 / 4) = 1`. -/
theorem claim_C7_counterexample :
    estimateTokens obsTitleOnly = 2 ∧ specTokensJoin obsTitleOnly = 1 ∧
    estimateTokens obsTitleOnly ≠ specTokensJoin obsTitleOnly := by
  have h1 : estimateTokens obsTitleOnly = 2 := by
    have hl : (tokenText obsTitleOnly).length = 5 := by decide
    rw [estimateTokens, hl]
    rw [show ((5 : ℕ) : ℚ) / 4 = 5 / 4 by norm_num]
    rw [Int.ceil_eq_iff]
    norm_num
  have h2 : specTokensJoin obsTitleOnly = 1 := by
    have hl : (String.intercalate " " (presentFields obsTitleOnly)).length = 4 := by decide
    rw [specTokensJoin, hl]
    rw [show ((4 : ℕ) : ℚ) / 4 = 1 by norm_num]
    rw [show (1 : ℚ) = ((1 : ℤ) : ℚ) by norm_num, Int.ceil_intCast]
  exact ⟨h1, h2, by rw [h1, h2]; decide⟩

/-- C7 amended: `estimateTokens` equals the ceiling of the character count of
the concatenation in which every present (truthy) field is followed by one
trailing space, divided by 4. -/
theorem claim_C7_amended_trailing_space (obs : ObservationRecord) :
    estimateTokens obs = specTokensTrailing obs := by
  rw [estimateTokens, specTokensTrailing, trailing_length]

/-- C8: an observation whose `concepts` field is present (truthy) and
deserializes to the empty list always scores exactly `0` whenever scoring
returns at all: `Math.max()` of no arguments is `-Infinity` and the final
clamp raises it to `0`. -/
theorem claim_C8_empty_tags_zero (obs : ObservationRecord) (now maxAgeMs : ℚ)
    (f : SerializedField) (q : ℚ) (h1 : obs.concepts = some f) (h2 : f.raw ≠ "")
    (h3 : f.parse = some [])
    (h4 : calculateImportanceScore obs now maxAgeMs = some q) : q = 0 := by
  rcases hfc : factsCountOf obs with _ | n
  · rw [calculateImportanceScore, hfc] at h4
    simp at h4
  · rw [calculateImportanceScore, hfc] at h4
    simp only [Option.map_some', Option.some.injEq] at h4
    simp only [conceptAdjustedScore, h1, h2, h3, ne_eq, not_false_eq_true, if_true,
      maxConceptWeight, List.foldr_nil, WithBot.map_bot, clampScore_bot] at h4
    exact h4.symm

/-- C8 witness: a concrete `decision` observation whose concepts deserialize
to `[]` scores exactly `0`. -/
theorem claim_C8_empty_tags_zero_witness :
    calculateImportanceScore obsEmptyTags 0 15552000000 = some 0 := by
  have hex : ∃ q, calculateImportanceScore obsEmptyTags 0 15552000000 = some q := by
    simp [calculateImportanceScore, factsCountOf, obsEmptyTags]
  obtain ⟨q, hq⟩ := hex
  have h0 := claim_C8_empty_tags_zero obsEmptyTags 0 15552000000 ⟨"[]", some []⟩ q rfl
    (by decide) rfl hq
  rw [hq, h0]

/-- C9: for fixed observation content and fixed `maxAgeMs > 0`, the score is
non-increasing in age — a copy of the observation with an older creation
timestamp never scores strictly higher than a younger copy. -/
theorem claim_C9_age_monotone (obs : ObservationRecord) (now maxAgeMs e₁ e₂ q₁ q₂ : ℚ)
    (hm : 0 < maxAgeMs) (he : e₂ ≤ e₁)
    (h₁ : calculateImportanceScore { obs with created_at_epoch := e₁ } now maxAgeMs = some q₁)
    (h₂ : calculateImportanceScore { obs with created_at_epoch := e₂ } now maxAgeMs = some q₂) :
    q₂ ≤ q₁ := by
  have hfc1 : factsCountOf { obs with created_at_epoch := e₁ } = factsCountOf obs := rfl
  have hfc2 : factsCountOf { obs with created_at_epoch := e₂ } = factsCountOf obs := rfl
  rcases hfc : factsCountOf obs with _ | n
  · rw [calculateImportanceScore, hfc1, hfc] at h₁
    simp at h₁
  · rw [calculateImportanceScore, hfc1, hfc] at h₁
    rw [calculateImportanceScore, hfc2, hfc] at h₂
    simp only [Option.map_some', Option.some.injEq] at h₁ h₂
    rw [← h₁, ← h₂]
    have hcs₂ : contentScore { obs with created_at_epoch := e₂ } n = contentScore obs n := rfl
    have hcs₁ : contentScore { obs with created_at_epoch := e₁ } n = contentScore obs n := rfl
    rw [hcs₂, hcs₁]
    exact clampScore_mono (withBotMapAddMono _
      (conceptAdjustedScore_anti obs now maxAgeMs e₁ e₂ hm he))

/-- C9 witness: with `maxAgeMs = 1` the bare `change` observation scores
`0.47` at age `0` and `0.235` at age `1`, and the theorem yields the
inequality between them. -/
theorem claim_C9_age_monotone_witness :
    calculateImportanceScore { obsPlain with created_at_epoch := (0 : ℚ) } 0 1
      = some (47/100)
    ∧ calculateImportanceScore { obsPlain with created_at_epoch := (-1 : ℚ) } 0 1
      = some (47/200)
    ∧ (47 : ℚ)/200 ≤ 47/100 := by
  have hty : obsPlain.type = "change" := rfl
  have hw : TYPE_WEIGHTS "change" = 0.4 := by simp [TYPE_WEIGHTS]
  have h₁ : calculateImportanceScore { obsPlain with created_at_epoch := (0 : ℚ) } 0 1
      = some (47/100) := by
    rw [score_plain, clampScore_coe]
    norm_num [agedScore, typeAdjustedScore, ageDecay, hty, hw, max_def, min_def]
  have h₂ : calculateImportanceScore { obsPlain with created_at_epoch := (-1 : ℚ) } 0 1
      = some (47/200) := by
    rw [score_plain, clampScore_coe]
    norm_num [agedScore, typeAdjustedScore, ageDecay, hty, hw, max_def, min_def]
  exact ⟨h₁, h₂, claim_C9_age_monotone obsPlain 0 1 0 (-1) _ _ (by norm_num) (by norm_num) h₁ h₂⟩

/-- C10: calling `analyze` with `project` equal to the empty string behaves
exactly as calling it with no project at all — both the eligibility query and
the total count are global, because the code tests the parameter for JS
truthiness. -/
theorem claim_C10_empty_project_global (store : SessionStore) (options : ShrinkOptions)
    (now : ℚ) :
    analyze store { options with project := some "" } now
      = analyze store { options with project := none } now := by
  have hp : projectFilter (some "") = projectFilter none := by
    funext o
    simp [projectFilter]
  simp [analyze, scanObservations, countObservations, hp]

end ClaudeMem
